import Mathlib

/-!
Shallow embedding of the traffic simulation core of the repository
(`src/TrafficManager.js`, with lane geometry from `src/World.js`).

Modelling conventions:
* JavaScript numbers are modelled as exact rationals (`ℚ`); lane indices,
  which the source stores in plain number fields, are modelled as `ℤ`.
* The pool `this.pool` is a `List Agent`; a pool slot's `userData` together
  with the slot's `position.x/z` and `visible` flag form the `Agent` record.
  Rendering-only state (meshes, materials, colours, rotation) is omitted.
* Calls to `Math.random()` are modelled by explicit rational oracle inputs:
  `SpawnRand` carries the three draws of `_spawn` (lane, z jitter, speed) and
  `AgentRand` the three draws of the per-agent block of `update`
  (lane-change roll, direction, cooldown jitter).
* The near-miss callback `onNearMiss` is modelled by returning the list of
  pool indices for which the callback fired, in firing order.
-/

namespace Traffic

/-- Pool capacity, `POOL_SIZE` in the source. -/
def POOL_SIZE : Nat := 30

/-- `SPAWN_AHEAD` in the source. -/
def SPAWN_AHEAD : ℚ := 300

/-- `DESPAWN_BEHIND` in the source. -/
def DESPAWN_BEHIND : ℚ := 80

/-- `MIN_SPEED` in the source (km/h). -/
def MIN_SPEED : ℚ := 60

/-- `MAX_SPEED` in the source (km/h). -/
def MAX_SPEED : ℚ := 120

/-- `LANE_CHANGE_P` in the source. -/
def LANE_CHANGE_P : ℚ := 0.003

/-- `NEAR_MISS_DIST` in the source. -/
def NEAR_MISS_DIST : ℚ := 2.5

/-- `NEAR_MISS_Z` in the source. -/
def NEAR_MISS_Z : ℚ := 5

/-- `LANE_COUNT` from `src/World.js`. -/
def LANE_COUNT : ℤ := 4

/-- `LANE_WIDTH` from `src/World.js`. -/
def LANE_WIDTH : ℚ := 3.8

/-- `laneToX` from `src/World.js`:
`(lane - (LANE_COUNT - 1) / 2) * LANE_WIDTH`. -/
def laneToX (lane : ℤ) : ℚ :=
  ((lane : ℚ) - ((LANE_COUNT : ℚ) - 1) / 2) * LANE_WIDTH

/-- One pool slot: the simulation-relevant state of a pooled car, i.e. the
`userData` fields of `TrafficManager._buildPool` / `_spawn` together with the
slot's `position.x`, `position.z` and `visible` flag. -/
structure Agent where
  active : Bool
  speed : ℚ
  lane : ℤ
  targetLane : ℤ
  lcTimer : ℚ
  nearMissCounted : Bool
  halfW : ℚ
  halfL : ℚ
  x : ℚ
  z : ℚ
  visible : Bool
deriving DecidableEq, Repr

instance : Inhabited Agent :=
  ⟨⟨false, 0, 0, 0, 0, false, 0, 0, 0, 0, false⟩⟩

/-- The `userData` record installed by `_buildPool` on every pool slot
(note: it overwrites whatever `_createCar` put into `g.userData`, so every
slot starts with `halfW = 0.95`, `halfL = 2.0`), with the slot hidden at the
default position. -/
def initAgent : Agent :=
  { active := false
    speed := 0
    lane := 0
    targetLane := 0
    lcTimer := 0
    nearMissCounted := false
    halfW := 0.95
    halfL := 2.0
    x := 0
    z := 0
    visible := false }

/-- The `(halfW, halfL)` pair that `_createCar` stores into `g.userData`
for an archetype draw `t = Math.random()`: sedan for `t < 0.5`,
SUV for `t < 0.8`, truck otherwise.  (`_buildPool` then discards this
record by reassigning `car.userData`.) -/
def createCarHalf (t : ℚ) : ℚ × ℚ :=
  if t < 0.5 then (0.95, 2.0)
  else if t < 0.8 then (1.05, 2.25)
  else (1.1, 2.75)

/-- The whole pool built by `_buildPool`: `POOL_SIZE` inactive slots. -/
def buildPool : List Agent := List.replicate POOL_SIZE initAgent

/-- `TrafficManager` state: the pool plus the spawn accumulator. -/
structure TrafficState where
  pool : List Agent
  spawnAccum : ℚ

/-- State established by the constructor. -/
def initState : TrafficState := { pool := buildPool, spawnAccum := 0 }

/-- Oracle for the three `Math.random()` draws of `_spawn`:
lane pick, z jitter, speed draw (each in `[0,1)` in the real program). -/
structure SpawnRand where
  laneR : ℚ
  zR : ℚ
  speedR : ℚ

/-- Oracle for the `Math.random()` draws of the per-agent `update` block:
lane-change roll, direction pick, cooldown jitter. -/
structure AgentRand where
  rollR : ℚ
  dirR : ℚ
  coolR : ℚ

/-- Number of active slots (the `active` counting loop of `_spawn`). -/
def countActive (p : List Agent) : Nat := p.countP fun c => c.active

/-- `targetCount` of `_spawn`: `Math.min(POOL_SIZE, 12 + Math.floor(distanceTraveled / 500))`. -/
def targetCount (dist : ℚ) : ℤ := min 30 (12 + ⌊dist / 500⌋)

/-- `_getInactive`, returning the index of the first inactive slot. -/
def getInactiveIdx : List Agent → Option Nat
  | [] => none
  | c :: cs => if c.active = false then some 0 else (getInactiveIdx cs).map (· + 1)

/-- Lane picked by `_spawn`: `Math.floor(Math.random() * LANE_COUNT)`. -/
def spawnLane (sr : SpawnRand) : ℤ := ⌊sr.laneR * (LANE_COUNT : ℚ)⌋

/-- Spawn z of `_spawn`: `playerZ + SPAWN_AHEAD + Math.random() * 100`. -/
def spawnZ (playerZ : ℚ) (sr : SpawnRand) : ℚ := playerZ + SPAWN_AHEAD + sr.zR * 100

/-- The clearance scan of `_spawn`: some active slot has
`|o.position.z - z| < 10 && |o.position.x - x| < 3`. -/
def spawnBlocked (p : List Agent) (x z : ℚ) : Bool :=
  p.any fun o => o.active && decide (|o.z - z| < 10) && decide (|o.x - x| < 3)

/-- The field assignments `_spawn` performs on the activated slot. -/
def spawnedAgent (playerZ : ℚ) (sr : SpawnRand) (c : Agent) : Agent :=
  { c with
    visible := true
    active := true
    lane := spawnLane sr
    targetLane := spawnLane sr
    speed := MIN_SPEED + sr.speedR * (MAX_SPEED - MIN_SPEED)
    lcTimer := 0
    nearMissCounted := false
    x := laneToX (spawnLane sr)
    z := spawnZ playerZ sr }

/-- `TrafficManager._spawn`.  All three failure paths (`active >= targetCount`,
no inactive slot, clearance scan hit) return the pool unchanged. -/
def spawnFn (playerZ dist : ℚ) (sr : SpawnRand) (p : List Agent) : List Agent :=
  if (countActive p : ℤ) ≥ targetCount dist then p
  else
    match getInactiveIdx p with
    | none => p
    | some i =>
      if spawnBlocked p (laneToX (spawnLane sr)) (spawnZ playerZ sr) then p
      else
        match p[i]? with
        | none => p
        | some c => p.set i (spawnedAgent playerZ sr c)

/-- The lane-change clearance scan of `update`: some other active slot has
`o.userData.lane === nl && |o.position.z - car.position.z| < 12`
(the committing car's z is its already-integrated z `z1`). -/
def laneBlocked (p : List Agent) (i : Nat) (nl : ℤ) (z1 : ℚ) : Bool :=
  (List.range p.length).any fun j =>
    (j != i) &&
      (match p[j]? with
       | some o => o.active && (o.lane == nl) && decide (|o.z - z1| < 12)
       | none => false)

/-- The lane-change decision block of `update` (timer test, probability roll,
direction pick, bounds check, clearance scan): returns the new
`(targetLane, lcTimer)` pair for a car at slot `i` whose current target lane
is `tl0`, integrated z is `z1` and decremented timer is `t1`. -/
def laneDecision (ar : AgentRand) (p : List Agent) (i : Nat) (tl0 : ℤ)
    (z1 t1 : ℚ) : ℤ × ℚ :=
  if t1 ≤ 0 ∧ ar.rollR < LANE_CHANGE_P then
    let dir : ℤ := if ar.dirR < 0.5 then -1 else 1
    let nl := tl0 + dir
    if 0 ≤ nl ∧ nl < LANE_COUNT then
      if laneBlocked p i nl z1 then (tl0, t1)
      else (nl, 3 + ar.coolR * 5)
    else (tl0, t1)
  else (tl0, t1)

/-- The movement part of the per-agent loop body: longitudinal integration
`z += (speed / 3.6) * dt`, timer decrement, lane-change decision, lateral
easing `x += (tx - x) * dt * 2.5`, and the `lane := targetLane` snap once
`|x - tx| < 0.1`. -/
def stepCore (dt : ℚ) (ar : AgentRand) (p : List Agent) (i : Nat)
    (c : Agent) : Agent :=
  let z1 := c.z + c.speed / 3.6 * dt
  let t1 := c.lcTimer - dt
  let lc := laneDecision ar p i c.targetLane z1 t1
  let tx := laneToX lc.1
  let x1 := c.x + (tx - c.x) * dt * 2.5
  { c with z := z1, lcTimer := lc.2, targetLane := lc.1, x := x1,
           lane := if |x1 - tx| < 0.1 then lc.1 else c.lane }

/-- One iteration of the per-agent loop of `TrafficManager.update`, acting on
slot `i` of the (partially updated) pool `p`: inactive slots are skipped,
then movement, then the despawn test on the integrated z, then the
near-miss test at the post-movement position.  Returns the new pool and
whether the near-miss callback fired for this slot. -/
def updateAgentAt (dt playerX playerZ playerSpeed : ℚ) (ar : AgentRand)
    (p : List Agent) (i : Nat) : List Agent × Bool :=
  match p[i]? with
  | none => (p, false)
  | some c =>
    if c.active = false then (p, false)
    else
      let c1 := stepCore dt ar p i c
      if c1.z < playerZ - DESPAWN_BEHIND then
        (p.set i { c1 with visible := false, active := false }, false)
      else if c.nearMissCounted = false ∧ |c1.x - playerX| < NEAR_MISS_DIST ∧
              |c1.z - playerZ| < NEAR_MISS_Z ∧ playerSpeed > c.speed * 1.2 then
        (p.set i { c1 with nearMissCounted := true }, true)
      else
        (p.set i c1, false)

/-- The per-agent loop of `update`, iterating the slot indices in order over
the evolving pool (as `for (const car of this.pool)` does).  Returns the
final pool and the indices for which the near-miss callback fired. -/
def updateLoop (dt playerX playerZ playerSpeed : ℚ) (ars : Nat → AgentRand) :
    List Nat → List Agent → List Agent × List Nat
  | [], p => (p, [])
  | i :: is, p =>
    let r := updateAgentAt dt playerX playerZ playerSpeed (ars i) p i
    let rest := updateLoop dt playerX playerZ playerSpeed ars is r.1
    (rest.1, (if r.2 then [i] else []) ++ rest.2)

/-- The inputs of one `update(dt, playerX, playerZ, playerSpeed,
distanceTraveled)` call together with its random oracles. -/
structure UpdIn where
  dt : ℚ
  playerX : ℚ
  playerZ : ℚ
  playerSpeed : ℚ
  dist : ℚ
  sr : SpawnRand
  ars : Nat → AgentRand

/-- The spawn step at the top of `update`: accumulate `dt`; past the 0.3s
threshold, run `_spawn` and reset the accumulator. -/
def spawnPhase (u : UpdIn) (s : TrafficState) : List Agent × ℚ :=
  if s.spawnAccum + u.dt > 0.3 then
    (spawnFn u.playerZ u.dist u.sr s.pool, 0)
  else (s.pool, s.spawnAccum + u.dt)

/-- `TrafficManager.update`: spawn step, then the per-agent loop. -/
def updateFn (u : UpdIn) (s : TrafficState) : TrafficState × List Nat :=
  let sp := spawnPhase u s
  let r := updateLoop u.dt u.playerX u.playerZ u.playerSpeed u.ars
    (List.range sp.1.length) sp.1
  ({ pool := r.1, spawnAccum := sp.2 }, r.2)

/-- The state after one `update` call. -/
def applyUpd (u : UpdIn) (s : TrafficState) : TrafficState := (updateFn u s).1

/-- `TrafficManager.reset`. -/
def resetFn (s : TrafficState) : TrafficState :=
  { pool := s.pool.map fun c => { c with visible := false, active := false }
    spawnAccum := 0 }

/-- `TrafficManager.checkCollision`. -/
def checkCollisionFn (p : List Agent) (px pz pHalfW pHalfL : ℚ) : Bool :=
  p.any fun c =>
    c.active && decide (|px - c.x| < (pHalfW + c.halfW) * 0.85) &&
      decide (|pz - c.z| < (pHalfL + c.halfL) * 0.85)

/-- One call into the manager, for trace-level claims.  `chk` is a pure
query and leaves the state unchanged. -/
inductive Op where
  | upd (u : UpdIn)
  | spn (playerZ dist : ℚ) (sr : SpawnRand)
  | chk (px pz hw hl : ℚ)
  | rst

/-- Effect of one call on the manager state. -/
def applyOp (s : TrafficState) : Op → TrafficState
  | .upd u => applyUpd u s
  | .spn pz d sr => { s with pool := spawnFn pz d sr s.pool }
  | .chk _ _ _ _ => s
  | .rst => resetFn s

/-- State after a sequence of calls, starting from the constructor. -/
def run (ops : List Op) : TrafficState := ops.foldl applyOp initState

/-- A sequence of `update` calls, concatenating the near-miss firings. -/
def runUpd (s : TrafficState) : List UpdIn → TrafficState × List Nat
  | [] => (s, [])
  | u :: us =>
    let r := updateFn u s
    let rest := runUpd r.1 us
    (rest.1, r.2 ++ rest.2)

/-- Whether slot `i` is active (out-of-range slots count as inactive). -/
def activeAt (s : TrafficState) (i : Nat) : Bool :=
  match s.pool[i]? with
  | some c => c.active
  | none => false

/-- Whether slot `i` has its near-miss already credited. -/
def countedAt (s : TrafficState) (i : Nat) : Bool :=
  match s.pool[i]? with
  | some c => c.nearMissCounted
  | none => false

/-- No call in the sequence of updates takes slot `i` from inactive to
active, i.e. slot `i` is never (re)spawned during the sequence. -/
def noReactivation (i : Nat) : TrafficState → List UpdIn → Bool
  | _, [] => true
  | s, u :: us =>
    (!((!activeAt s i) && activeAt (applyUpd u s) i)) &&
      noReactivation i (applyUpd u s) us

/-! ### Concrete instances used by the counterexample and the witnesses

The rational random draws below all lie in `[0,1)`, so each instance is a
possible run of the real program. -/

/-- An update call with `dt = 0.25` (below the spawn cadence), the player far
away laterally, and lane-change rolls that all fail. -/
def demoUpdIn : UpdIn :=
  { dt := 1/4, playerX := 1000, playerZ := 0, playerSpeed := 0, dist := 0,
    sr := ⟨0, 0, 0⟩, ars := fun _ => ⟨1/2, 1/2, 1/2⟩ }

/-- Spawn a 72 km/h car in lane 0 at z = 300, a 108 km/h car in lane 0 at
z = 288 (12 apart, so the clearance scan passes), then update for 0.25 s:
the rear car closes the gap to 9.5. -/
def demoOps : List Op :=
  [.spn 0 0 ⟨0, 0, 1/5⟩, .spn (-12) 0 ⟨0, 0, 4/5⟩, .upd demoUpdIn]

/-- The pool just before the final spawn of the counterexample trace. -/
def demoPool : List Agent := (run demoOps).pool

/-- The pool immediately after one more successful spawn (lane 3, z = 350,
far from both lane-0 cars, so it is accepted). -/
def demoSpawned : List Agent := spawnFn 0 0 ⟨3/4, 1/2, 0⟩ demoPool

/-- An active agent far from the candidate spawn point. -/
def wFar : Agent := { initAgent with active := true, z := 0, x := laneToX 0 }

/-- Pool for the amended-C4 witness: one distant active car, one free slot. -/
def wPoolC4 : List Agent := [wFar, initAgent]

/-- A lane-0 car 100 units ahead, clear of the lane-change safety window. -/
def wBlocker : Agent :=
  { initAgent with active := true, lane := 0, targetLane := 0, z := 100,
                   x := laneToX 0 }

/-- A stationary lane-1 car about to roll a lane change towards lane 0. -/
def wMover : Agent :=
  { initAgent with active := true, lane := 1, targetLane := 1, z := 0,
                   x := laneToX 1, speed := 0 }

/-- Pool for the C5 witness. -/
def wPoolC5 : List Agent := [wBlocker, wMover]

/-- `wMover` after one step with `dt = 1` and draws `(0,0,0)`: the roll
succeeds, direction is -1, lane 0 is clear (distance 100 ≥ 12), so the car
commits `targetLane = 0` and gets cooldown 3. -/
def wMoverStepped : Agent :=
  { active := true, speed := 0, lane := 1, targetLane := 0, lcTimer := 3,
    nearMissCounted := false, halfW := 0.95, halfL := 2.0, x := -11.4, z := 0,
    visible := false }

/-- An active agent whose near miss was already credited. -/
def wC6Agent : Agent :=
  { initAgent with active := true, nearMissCounted := true }

/-- State for the C6 witness. -/
def wC6State : TrafficState := { pool := [wC6Agent], spawnAccum := 0 }

/-- A short update (no spawn, no roll success, no despawn, no near miss). -/
def wC6U : UpdIn :=
  { dt := 1/10, playerX := 1000, playerZ := 0, playerSpeed := 0, dist := 0,
    sr := ⟨0, 0, 0⟩, ars := fun _ => ⟨1, 1, 1⟩ }

/-- A 90 km/h car in lane 0 at z = 4, matching the spec scenario. -/
def wC7Agent : Agent :=
  { initAgent with active := true, speed := 90, lane := 0, targetLane := 0,
                   z := 4, x := laneToX 0 }

/-- Pool for the C7 witness. -/
def wC7Pool : List Agent := [wC7Agent]

/-- `wC7Agent` after a `dt = 0` step with the player 2.0 to the side,
4 ahead longitudinally, at 117 km/h = 1.3 × 90 km/h: the near miss fires. -/
def wC7Stepped : Agent :=
  { active := true, speed := 90, lane := 0, targetLane := 0, lcTimer := 0,
    nearMissCounted := true, halfW := 0.95, halfL := 2.0, x := laneToX 0,
    z := 4, visible := false }

/-- A 72 km/h car already 100 behind the player. -/
def wC8Agent : Agent :=
  { initAgent with active := true, speed := 72, z := -100, x := laneToX 0 }

/-- State for the C8 witness. -/
def wC8State : TrafficState := { pool := [wC8Agent], spawnAccum := 0 }

/-- An update with `dt = 0.1`: no spawn, and the car integrates to z = -98,
more than 80 behind the player at z = 0. -/
def wC8U : UpdIn :=
  { dt := 1/10, playerX := 0, playerZ := 0, playerSpeed := 0, dist := 0,
    sr := ⟨0, 0, 0⟩, ars := fun _ => ⟨1, 1, 1⟩ }

/-- Twelve active slots: the distance-0 target count is already met and no
inactive slot exists. -/
def wFullPool : List Agent :=
  List.replicate 12 { initAgent with active := true }

/-- One active car sitting exactly at the candidate spawn point for
`playerZ = 0` and draws `(0,0,0)` (lane 0, z = 300). -/
def wNearPool : List Agent :=
  [{ initAgent with active := true, x := laneToX 0, z := 300 }]

/-- State for the C10 witness: a single inactive slot. -/
def wC10State : TrafficState := { pool := [initAgent], spawnAccum := 0 }

/-- An update with `dt = 0.1`, below the spawn cadence. -/
def wC10U : UpdIn :=
  { dt := 1/10, playerX := 0, playerZ := 0, playerSpeed := 0, dist := 0,
    sr := ⟨0, 0, 0⟩, ars := fun _ => ⟨1, 1, 1⟩ }

/-! ### Basic lemmas about the embedded operations -/

lemma length_spawnFn (playerZ dist : ℚ) (sr : SpawnRand) (p : List Agent) :
    (spawnFn playerZ dist sr p).length = p.length := by
  unfold spawnFn
  split
  · rfl
  · split
    · rfl
    · split
      · rfl
      · split
        · rfl
        · exact List.length_set ..

lemma getInactiveIdx_spec :
    ∀ (p : List Agent) (i : Nat), getInactiveIdx p = some i →
      ∃ c, p[i]? = some c ∧ c.active = false := by
  intro p
  induction p with
  | nil => intro i h; simp [getInactiveIdx] at h
  | cons c cs ih =>
    intro i h
    unfold getInactiveIdx at h
    by_cases hc : c.active = false
    · rw [if_pos hc] at h
      obtain rfl : 0 = i := by simpa using h
      exact ⟨c, by simp, hc⟩
    · rw [if_neg hc] at h
      cases hg : getInactiveIdx cs with
      | none => rw [hg] at h; simp at h
      | some k =>
        rw [hg] at h
        have hik : i = k + 1 := by
          simpa using h.symm
        subst hik
        obtain ⟨d, hd, hda⟩ := ih k hg
        exact ⟨d, by simpa using hd, hda⟩

lemma spawnBlocked_eq_false {p : List Agent} {x z : ℚ}
    (h : spawnBlocked p x z = false) :
    ∀ o ∈ p, o.active = true → ¬ (|o.z - z| < 10 ∧ |o.x - x| < 3) := by
  intro o ho hoa hlt
  have : spawnBlocked p x z = true := by
    unfold spawnBlocked
    rw [List.any_eq_true]
    exact ⟨o, ho, by simp [hoa, hlt.1, hlt.2]⟩
  rw [h] at this
  exact absurd this (by simp)

lemma laneBlocked_eq_false {p : List Agent} {i : Nat} {nl : ℤ} {z1 : ℚ}
    (h : laneBlocked p i nl z1 = false) :
    ∀ j cj, j ≠ i → p[j]? = some cj → cj.active = true → cj.lane = nl →
      ¬ (|cj.z - z1| < 12) := by
  intro j cj hji hj hja hlane hlt
  have hjlen : j < p.length := by
    rcases List.getElem?_eq_some.mp hj with ⟨hl, _⟩
    exact hl
  have : laneBlocked p i nl z1 = true := by
    unfold laneBlocked
    rw [List.any_eq_true]
    refine ⟨j, List.mem_range.mpr hjlen, ?_⟩
    rw [hj]
    simp [hji, hja, hlane, hlt]
  rw [h] at this
  exact absurd this (by simp)

lemma checkCollision_iff (p : List Agent) (px pz hw hl : ℚ) :
    checkCollisionFn p px pz hw hl = true ↔
      ∃ (j : Nat) (cj : Agent), p[j]? = some cj ∧ cj.active = true ∧
        |px - cj.x| < (hw + cj.halfW) * 0.85 ∧
        |pz - cj.z| < (hl + cj.halfL) * 0.85 := by
  unfold checkCollisionFn
  rw [List.any_eq_true]
  constructor
  · rintro ⟨c, hc, hcond⟩
    obtain ⟨j, hjl, hj⟩ := List.mem_iff_getElem.mp hc
    refine ⟨j, c, by rw [List.getElem?_eq_some]; exact ⟨hjl, hj⟩, ?_⟩
    simpa [and_assoc] using hcond
  · rintro ⟨j, cj, hj, hja, h1, h2⟩
    have hm : cj ∈ p := by
      rcases List.getElem?_eq_some.mp hj with ⟨hl', he⟩
      exact he ▸ List.getElem_mem hl'
    exact ⟨cj, hm, by simp [hja, h1, h2]⟩

lemma spawnFn_eq_or_set (playerZ dist : ℚ) (sr : SpawnRand) (p : List Agent) :
    spawnFn playerZ dist sr p = p ∨
      ∃ i c, getInactiveIdx p = some i ∧ p[i]? = some c ∧ c.active = false ∧
        spawnBlocked p (laneToX (spawnLane sr)) (spawnZ playerZ sr) = false ∧
        spawnFn playerZ dist sr p = p.set i (spawnedAgent playerZ sr c) := by
  unfold spawnFn
  by_cases h1 : (countActive p : ℤ) ≥ targetCount dist
  · rw [if_pos h1]
    exact Or.inl rfl
  · rw [if_neg h1]
    cases hg : getInactiveIdx p with
    | none => exact Or.inl rfl
    | some i =>
      dsimp only
      obtain ⟨c, hc, hca⟩ := getInactiveIdx_spec p i hg
      by_cases hb : spawnBlocked p (laneToX (spawnLane sr)) (spawnZ playerZ sr) = true
      · rw [if_pos hb]
        exact Or.inl rfl
      · rw [if_neg hb, hc]
        exact Or.inr ⟨i, c, rfl, hc, hca, by simpa using hb, rfl⟩

lemma spawnFn_getElem_of_active {p : List Agent} {i : Nat} {c : Agent}
    (playerZ dist : ℚ) (sr : SpawnRand)
    (hc : p[i]? = some c) (ha : c.active = true) :
    (spawnFn playerZ dist sr p)[i]? = some c := by
  rcases spawnFn_eq_or_set playerZ dist sr p with h | ⟨k, d, _, hk, hka, _, h⟩
  · rw [h, hc]
  · rw [h]
    have hki : k ≠ i := by
      rintro rfl
      rw [hc] at hk
      injection hk with hk
      rw [← hk] at hka
      rw [ha] at hka
      exact absurd hka (by simp)
    rw [List.getElem?_set_ne hki, hc]

/-! ### Lemmas about the per-agent update step -/

lemma stepCore_active (dt : ℚ) (ar : AgentRand) (p : List Agent) (i : Nat)
    (c : Agent) : (stepCore dt ar p i c).active = c.active := rfl

lemma stepCore_counted (dt : ℚ) (ar : AgentRand) (p : List Agent) (i : Nat)
    (c : Agent) : (stepCore dt ar p i c).nearMissCounted = c.nearMissCounted := rfl

lemma stepCore_z (dt : ℚ) (ar : AgentRand) (p : List Agent) (i : Nat)
    (c : Agent) : (stepCore dt ar p i c).z = c.z + c.speed / 3.6 * dt := rfl

lemma stepCore_half (dt : ℚ) (ar : AgentRand) (p : List Agent) (i : Nat)
    (c : Agent) :
    (stepCore dt ar p i c).halfW = c.halfW ∧
      (stepCore dt ar p i c).halfL = c.halfL := ⟨rfl, rfl⟩

lemma laneDecision_safety {ar : AgentRand} {p : List Agent} {i : Nat}
    {tl0 nl : ℤ} {z1 t1 t' : ℚ}
    (hd : laneDecision ar p i tl0 z1 t1 = (nl, t')) (hne : nl ≠ tl0) :
    laneBlocked p i nl z1 = false := by
  unfold laneDecision at hd
  dsimp only at hd
  repeat' split at hd
  all_goals injection hd with e1 e2
  all_goals subst e1
  all_goals simp_all

lemma updateAgentAt_none {p : List Agent} {i : Nat}
    (dt px pz ps : ℚ) (ar : AgentRand) (hc : p[i]? = none) :
    updateAgentAt dt px pz ps ar p i = (p, false) := by
  unfold updateAgentAt
  rw [hc]

lemma updateAgentAt_inactive {p : List Agent} {i : Nat} {c : Agent}
    (dt px pz ps : ℚ) (ar : AgentRand)
    (hc : p[i]? = some c) (ha : c.active = false) :
    updateAgentAt dt px pz ps ar p i = (p, false) := by
  unfold updateAgentAt
  rw [hc]
  dsimp only
  rw [if_pos ha]

lemma updateAgentAt_eq {p : List Agent} {i : Nat} {c : Agent}
    (dt px pz ps : ℚ) (ar : AgentRand)
    (hc : p[i]? = some c) (ha : c.active = true) :
    updateAgentAt dt px pz ps ar p i =
      (if (stepCore dt ar p i c).z < pz - DESPAWN_BEHIND then
        (p.set i { stepCore dt ar p i c with visible := false, active := false },
         false)
      else if c.nearMissCounted = false ∧
              |(stepCore dt ar p i c).x - px| < NEAR_MISS_DIST ∧
              |(stepCore dt ar p i c).z - pz| < NEAR_MISS_Z ∧
              ps > c.speed * 1.2 then
        (p.set i { stepCore dt ar p i c with nearMissCounted := true }, true)
      else
        (p.set i (stepCore dt ar p i c), false)) := by
  unfold updateAgentAt
  rw [hc]
  dsimp only
  rw [if_neg (by simp [ha])]

lemma updateAgentAt_length (dt px pz ps : ℚ) (ar : AgentRand)
    (p : List Agent) (i : Nat) :
    (updateAgentAt dt px pz ps ar p i).1.length = p.length := by
  unfold updateAgentAt
  cases hc : p[i]? with
  | none => rfl
  | some c =>
    dsimp only
    split
    · rfl
    · split
      · exact List.length_set ..
      · split
        · exact List.length_set ..
        · exact List.length_set ..

lemma updateAgentAt_getElem_ne {j i : Nat} (dt px pz ps : ℚ) (ar : AgentRand)
    (p : List Agent) (hji : j ≠ i) :
    (updateAgentAt dt px pz ps ar p i).1[j]? = p[j]? := by
  unfold updateAgentAt
  cases hc : p[i]? with
  | none => rfl
  | some c =>
    dsimp only
    split
    · rfl
    · split
      · exact List.getElem?_set_ne (Ne.symm hji)
      · split
        · exact List.getElem?_set_ne (Ne.symm hji)
        · exact List.getElem?_set_ne (Ne.symm hji)

lemma updateAgentAt_despawn {p : List Agent} {i : Nat} {c : Agent}
    (dt px pz ps : ℚ) (ar : AgentRand)
    (hc : p[i]? = some c) (ha : c.active = true)
    (hz : c.z + c.speed / 3.6 * dt < pz - DESPAWN_BEHIND) :
    (updateAgentAt dt px pz ps ar p i).2 = false ∧
      ∃ c', (updateAgentAt dt px pz ps ar p i).1[i]? = some c' ∧
        c'.active = false ∧ c'.visible = false ∧
        c'.nearMissCounted = c.nearMissCounted := by
  have hlen : i < p.length := by
    obtain ⟨h, -⟩ := List.getElem?_eq_some.mp hc
    exact h
  rw [updateAgentAt_eq dt px pz ps ar hc ha]
  rw [if_pos (show (stepCore dt ar p i c).z < pz - DESPAWN_BEHIND by
    rw [stepCore_z]; exact hz)]
  exact ⟨rfl, _, List.getElem?_set_self hlen, rfl, rfl, rfl⟩

lemma updateAgentAt_fired {p : List Agent} {i : Nat}
    (dt px pz ps : ℚ) (ar : AgentRand)
    (h2 : (updateAgentAt dt px pz ps ar p i).2 = true) :
    ∃ c c', p[i]? = some c ∧ c.active = true ∧ c.nearMissCounted = false ∧
      (updateAgentAt dt px pz ps ar p i).1[i]? = some c' ∧
      c'.nearMissCounted = true ∧ c'.active = true := by
  cases hc : p[i]? with
  | none =>
    rw [updateAgentAt_none dt px pz ps ar hc] at h2
    exact absurd h2 (by simp)
  | some c =>
    cases hab : c.active with
    | false =>
      rw [updateAgentAt_inactive dt px pz ps ar hc hab] at h2
      exact absurd h2 (by simp)
    | true =>
      have hlen : i < p.length := by
        obtain ⟨h, -⟩ := List.getElem?_eq_some.mp hc
        exact h
      rw [updateAgentAt_eq dt px pz ps ar hc hab] at h2 ⊢
      split at h2
      · exact absurd h2 (by simp)
      · split at h2
        · rename_i hnd hcond
          rw [if_neg hnd, if_pos hcond]
          exact ⟨c, _, rfl, hab, hcond.1, List.getElem?_set_self hlen, rfl, hab⟩
        · exact absurd h2 (by simp)

lemma updateAgentAt_counted {p : List Agent} {i : Nat} {c : Agent}
    (dt px pz ps : ℚ) (ar : AgentRand)
    (hc : p[i]? = some c) (ha : c.active = true) (hn : c.nearMissCounted = true) :
    (updateAgentAt dt px pz ps ar p i).2 = false ∧
      ∃ c', (updateAgentAt dt px pz ps ar p i).1[i]? = some c' ∧
        c'.nearMissCounted = true := by
  have hlen : i < p.length := by
    obtain ⟨h, -⟩ := List.getElem?_eq_some.mp hc
    exact h
  rw [updateAgentAt_eq dt px pz ps ar hc ha]
  split
  · exact ⟨rfl, _, List.getElem?_set_self hlen, hn⟩
  · rw [if_neg (by simp [hn])]
    exact ⟨rfl, _, List.getElem?_set_self hlen, hn⟩

lemma updateAgentAt_shape (dt px pz ps : ℚ) (ar : AgentRand)
    (p : List Agent) (i : Nat) :
    (updateAgentAt dt px pz ps ar p i).1 = p ∨
      ∃ c r, p[i]? = some c ∧ (updateAgentAt dt px pz ps ar p i).1 = p.set i r ∧
        r.halfW = c.halfW ∧ r.halfL = c.halfL := by
  unfold updateAgentAt
  cases hc : p[i]? with
  | none => exact Or.inl rfl
  | some c =>
    dsimp only
    split
    · exact Or.inl rfl
    · split
      · exact Or.inr ⟨c, _, rfl, rfl, rfl, rfl⟩
      · split
        · exact Or.inr ⟨c, _, rfl, rfl, rfl, rfl⟩
        · exact Or.inr ⟨c, _, rfl, rfl, rfl, rfl⟩

/-! ### Lemmas about the per-agent loop -/

lemma updateLoop_length (dt px pz ps : ℚ) (ars : Nat → AgentRand) :
    ∀ (is : List Nat) (p : List Agent),
      (updateLoop dt px pz ps ars is p).1.length = p.length := by
  intro is
  induction is with
  | nil => intro p; rfl
  | cons j is ih =>
    intro p
    simp only [updateLoop]
    rw [ih, updateAgentAt_length]

lemma updateLoop_getElem_not_mem {i : Nat} (dt px pz ps : ℚ)
    (ars : Nat → AgentRand) :
    ∀ (is : List Nat) (p : List Agent), i ∉ is →
      (updateLoop dt px pz ps ars is p).1[i]? = p[i]? := by
  intro is
  induction is with
  | nil => intro p _; rfl
  | cons j is ih =>
    intro p hmem
    have hij : i ≠ j := fun h => hmem (h ▸ List.mem_cons_self ..)
    have his : i ∉ is := fun h => hmem (List.mem_cons_of_mem _ h)
    simp only [updateLoop]
    rw [ih _ his, updateAgentAt_getElem_ne dt px pz ps _ _ hij]

lemma updateLoop_fires_mem (dt px pz ps : ℚ) (ars : Nat → AgentRand) :
    ∀ (is : List Nat) (p : List Agent) (x : Nat),
      x ∈ (updateLoop dt px pz ps ars is p).2 → x ∈ is := by
  intro is
  induction is with
  | nil => intro p x h; exact absurd h (by simp [updateLoop])
  | cons j is ih =>
    intro p x h
    simp only [updateLoop] at h
    rcases List.mem_append.mp h with h | h
    · split at h
      · simp only [List.mem_singleton] at h
        exact h ▸ List.mem_cons_self ..
      · exact absurd h (by simp)
    · exact List.mem_cons_of_mem _ (ih _ _ h)

lemma updateLoop_count_not_mem {i : Nat} (dt px pz ps : ℚ)
    (ars : Nat → AgentRand) (is : List Nat) (p : List Agent) (h : i ∉ is) :
    (updateLoop dt px pz ps ars is p).2.count i = 0 :=
  List.count_eq_zero.mpr fun hm => h (updateLoop_fires_mem dt px pz ps ars is p i hm)

lemma updateLoop_count_le {i : Nat} (dt px pz ps : ℚ) (ars : Nat → AgentRand) :
    ∀ (is : List Nat) (p : List Agent), is.Nodup →
      (updateLoop dt px pz ps ars is p).2.count i ≤ 1 := by
  intro is
  induction is with
  | nil => intro p _; simp [updateLoop]
  | cons j is ih =>
    intro p hnd
    simp only [updateLoop, List.count_append]
    by_cases hj : j = i
    · subst hj
      have hnot : j ∉ is := (List.nodup_cons.mp hnd).1
      rw [updateLoop_count_not_mem dt px pz ps ars is _ hnot]
      split
      · simp
      · simp
    · have : (if (updateAgentAt dt px pz ps (ars j) p j).2 then [j] else []).count i = 0 := by
        split
        · simp [List.count_singleton', if_neg hj]
        · simp
      rw [this]
      simpa using ih _ (List.nodup_cons.mp hnd).2

lemma updateLoop_fired {i : Nat} (dt px pz ps : ℚ) (ars : Nat → AgentRand) :
    ∀ (is : List Nat) (p : List Agent), is.Nodup →
      1 ≤ (updateLoop dt px pz ps ars is p).2.count i →
      ∃ c', (updateLoop dt px pz ps ars is p).1[i]? = some c' ∧
        c'.nearMissCounted = true ∧ c'.active = true := by
  intro is
  induction is with
  | nil => intro p _ h; exact absurd h (by simp [updateLoop])
  | cons j is ih =>
    intro p hnd h
    simp only [updateLoop, List.count_append] at h ⊢
    by_cases hj : j = i
    · subst hj
      have hnot : j ∉ is := (List.nodup_cons.mp hnd).1
      rw [updateLoop_count_not_mem dt px pz ps ars is _ hnot] at h
      have hf : (updateAgentAt dt px pz ps (ars j) p j).2 = true := by
        by_contra hf
        rw [if_neg hf] at h
        simp at h
      obtain ⟨c, c', -, -, -, hslot, hcnt, hact⟩ :=
        updateAgentAt_fired dt px pz ps (ars j) hf
      refine ⟨c', ?_, hcnt, hact⟩
      rw [updateLoop_getElem_not_mem dt px pz ps ars is _ hnot]
      exact hslot
    · have hz : (if (updateAgentAt dt px pz ps (ars j) p j).2 then [j] else []).count i = 0 := by
        split
        · simp [List.count_singleton', if_neg hj]
        · simp
      rw [hz] at h
      simp only [Nat.zero_add] at h
      exact ih _ (List.nodup_cons.mp hnd).2 h

lemma updateLoop_counted {i : Nat} (dt px pz ps : ℚ) (ars : Nat → AgentRand) :
    ∀ (is : List Nat) (p : List Agent) (c : Agent), is.Nodup →
      p[i]? = some c → c.active = true → c.nearMissCounted = true →
      (updateLoop dt px pz ps ars is p).2.count i = 0 ∧
        ∃ c', (updateLoop dt px pz ps ars is p).1[i]? = some c' ∧
          c'.nearMissCounted = true := by
  intro is
  induction is with
  | nil => intro p c _ hc _ hn; exact ⟨by simp [updateLoop], c, hc, hn⟩
  | cons j is ih =>
    intro p c hnd hc ha hn
    simp only [updateLoop, List.count_append]
    by_cases hj : j = i
    · subst hj
      have hnot : j ∉ is := (List.nodup_cons.mp hnd).1
      obtain ⟨hf, c2, hc2, hn2⟩ :=
        updateAgentAt_counted dt px pz ps (ars j) hc ha hn
      rw [updateLoop_count_not_mem dt px pz ps ars is _ hnot, hf]
      refine ⟨by simp, c2, ?_, hn2⟩
      rw [updateLoop_getElem_not_mem dt px pz ps ars is _ hnot]
      exact hc2
    · have hslot : (updateAgentAt dt px pz ps (ars j) p j).1[i]? = some c := by
        rw [updateAgentAt_getElem_ne dt px pz ps (ars j) p (Ne.symm hj)]
        exact hc
      obtain ⟨hcount, c', hc', hn'⟩ :=
        ih _ c (List.nodup_cons.mp hnd).2 hslot ha hn
      have hz : (if (updateAgentAt dt px pz ps (ars j) p j).2 then [j] else []).count i = 0 := by
        split
        · simp [List.count_singleton', if_neg hj]
        · simp
      exact ⟨by rw [hz, hcount], c', hc', hn'⟩

lemma updateLoop_despawn {i : Nat} (dt px pz ps : ℚ) (ars : Nat → AgentRand) :
    ∀ (is : List Nat) (p : List Agent) (c : Agent), is.Nodup → i ∈ is →
      p[i]? = some c → c.active = true →
      c.z + c.speed / 3.6 * dt < pz - DESPAWN_BEHIND →
      ∃ c', (updateLoop dt px pz ps ars is p).1[i]? = some c' ∧
        c'.active = false ∧ c'.visible = false := by
  intro is
  induction is with
  | nil => intro p c _ hm; exact absurd hm (by simp)
  | cons j is ih =>
    intro p c hnd hm hc ha hz
    simp only [updateLoop]
    by_cases hj : j = i
    · subst hj
      have hnot : j ∉ is := (List.nodup_cons.mp hnd).1
      obtain ⟨-, c', hc', hact, hvis, -⟩ :=
        updateAgentAt_despawn dt px pz ps (ars j) hc ha hz
      refine ⟨c', ?_, hact, hvis⟩
      rw [updateLoop_getElem_not_mem dt px pz ps ars is _ hnot]
      exact hc'
    · have hmem : i ∈ is := by
        rcases List.mem_cons.mp hm with h | h
        · exact absurd h (fun h => hj h.symm)
        · exact h
      have hslot : (updateAgentAt dt px pz ps (ars j) p j).1[i]? = some c := by
        rw [updateAgentAt_getElem_ne dt px pz ps (ars j) p (Ne.symm hj)]
        exact hc
      exact ih _ c (List.nodup_cons.mp hnd).2 hmem hslot ha hz

lemma updateLoop_skips_inactive {i : Nat} (dt px pz ps : ℚ)
    (ars : Nat → AgentRand) :
    ∀ (is : List Nat) (p : List Agent) (c : Agent),
      p[i]? = some c → c.active = false →
      (updateLoop dt px pz ps ars is p).1[i]? = some c := by
  intro is
  induction is with
  | nil => intro p c hc _; exact hc
  | cons j is ih =>
    intro p c hc ha
    simp only [updateLoop]
    by_cases hj : j = i
    · subst hj
      rw [updateAgentAt_inactive dt px pz ps (ars j) hc ha]
      exact ih _ c hc ha
    · have hslot : (updateAgentAt dt px pz ps (ars j) p j).1[i]? = some c := by
        rw [updateAgentAt_getElem_ne dt px pz ps (ars j) p (Ne.symm hj)]
        exact hc
      exact ih _ c hslot ha

/-! ### Lemmas about a whole update call -/

lemma spawnPhase_cases (u : UpdIn) (s : TrafficState) :
    (spawnPhase u s).1 = s.pool ∨
      (spawnPhase u s).1 = spawnFn u.playerZ u.dist u.sr s.pool := by
  unfold spawnPhase
  split
  · exact Or.inr rfl
  · exact Or.inl rfl

lemma spawnPhase_length (u : UpdIn) (s : TrafficState) :
    (spawnPhase u s).1.length = s.pool.length := by
  rcases spawnPhase_cases u s with h | h
  · rw [h]
  · rw [h, length_spawnFn]

lemma spawnPhase_getElem_of_active {s : TrafficState} {i : Nat} {c : Agent}
    (u : UpdIn) (hc : s.pool[i]? = some c) (ha : c.active = true) :
    (spawnPhase u s).1[i]? = some c := by
  rcases spawnPhase_cases u s with h | h
  · rw [h]; exact hc
  · rw [h]; exact spawnFn_getElem_of_active u.playerZ u.dist u.sr hc ha

lemma spawnPhase_inactive_back {s : TrafficState} {i : Nat} {c : Agent}
    (u : UpdIn) (hc : (spawnPhase u s).1[i]? = some c) (ha : c.active = false) :
    s.pool[i]? = some c := by
  rcases spawnPhase_cases u s with h | h
  · rw [h] at hc; exact hc
  · rw [h] at hc
    rcases spawnFn_eq_or_set u.playerZ u.dist u.sr s.pool with he | ⟨k, d, -, hk, -, -, he⟩
    · rw [he] at hc; exact hc
    · rw [he] at hc
      by_cases hki : k = i
      · subst hki
        have hlen : k < s.pool.length := by
          obtain ⟨h', -⟩ := List.getElem?_eq_some.mp hk
          exact h'
        rw [List.getElem?_set_self hlen] at hc
        injection hc with hc
        rw [← hc] at ha
        exact absurd ha (by simp [spawnedAgent])
      · rw [List.getElem?_set_ne hki] at hc
        exact hc

lemma applyUpd_pool (u : UpdIn) (s : TrafficState) :
    (applyUpd u s).pool =
      (updateLoop u.dt u.playerX u.playerZ u.playerSpeed u.ars
        (List.range (spawnPhase u s).1.length) (spawnPhase u s).1).1 := rfl

lemma updateFn_count_le (u : UpdIn) (s : TrafficState) (i : Nat) :
    (updateFn u s).2.count i ≤ 1 := by
  exact updateLoop_count_le u.dt u.playerX u.playerZ u.playerSpeed u.ars
    _ _ (List.nodup_range _)

lemma updateFn_fired {u : UpdIn} {s : TrafficState} {i : Nat}
    (h : 1 ≤ (updateFn u s).2.count i) :
    ∃ c', (applyUpd u s).pool[i]? = some c' ∧
      c'.nearMissCounted = true ∧ c'.active = true := by
  exact updateLoop_fired u.dt u.playerX u.playerZ u.playerSpeed u.ars
    _ _ (List.nodup_range _) h

lemma updateFn_counted {u : UpdIn} {s : TrafficState} {i : Nat} {c : Agent}
    (hc : s.pool[i]? = some c) (ha : c.active = true)
    (hn : c.nearMissCounted = true) :
    (updateFn u s).2.count i = 0 ∧
      ∃ c', (applyUpd u s).pool[i]? = some c' ∧ c'.nearMissCounted = true := by
  have hsp := spawnPhase_getElem_of_active u hc ha
  exact updateLoop_counted u.dt u.playerX u.playerZ u.playerSpeed u.ars
    _ _ c (List.nodup_range _) hsp ha hn

lemma activeAt_iff {s : TrafficState} {i : Nat} :
    activeAt s i = true ↔ ∃ c, s.pool[i]? = some c ∧ c.active = true := by
  unfold activeAt
  cases hc : s.pool[i]? with
  | none => simp
  | some c =>
    simp only [Option.some.injEq]
    constructor
    · intro h; exact ⟨c, rfl, h⟩
    · rintro ⟨d, hd, hda⟩
      rw [hd]
      exact hda

lemma activeAt_of_getElem {s : TrafficState} {i : Nat} {c : Agent}
    (hc : s.pool[i]? = some c) : activeAt s i = c.active := by
  unfold activeAt
  rw [hc]

lemma countedAt_of_getElem {s : TrafficState} {i : Nat} {c : Agent}
    (hc : s.pool[i]? = some c) : countedAt s i = c.nearMissCounted := by
  unfold countedAt
  rw [hc]

lemma runUpd_count_zero {i : Nat} :
    ∀ (us : List UpdIn) (s : TrafficState), noReactivation i s us = true →
      (activeAt s i = false ∨
        (activeAt s i = true ∧ countedAt s i = true)) →
      (runUpd s us).2.count i = 0 := by
  intro us
  induction us with
  | nil => intro s _ _; simp [runUpd]
  | cons u us ih =>
    intro s hnr hst
    have hnr' : noReactivation i (applyUpd u s) us = true :=
      (Bool.and_eq_true_iff.mp hnr).2
    have hhead : (!((!activeAt s i) && activeAt (applyUpd u s) i)) = true :=
      (Bool.and_eq_true_iff.mp hnr).1
    simp only [runUpd, List.count_append]
    rcases hst with hin | ⟨hact, hcnt⟩
    · have hafter : activeAt (applyUpd u s) i = false := by
        rcases h1 : activeAt (applyUpd u s) i with - | -
        · rfl
        · rw [hin, h1] at hhead
          exact absurd hhead (by simp)
      have hu : (updateFn u s).2.count i = 0 := by
        by_contra h0
        obtain ⟨c', hc', -, hca⟩ :=
          @updateFn_fired u s i (Nat.one_le_iff_ne_zero.mpr h0)
        have : activeAt (applyUpd u s) i = true :=
          activeAt_iff.mpr ⟨c', hc', hca⟩
        rw [hafter] at this
        exact absurd this (by simp)
      rw [hu]
      have := ih (applyUpd u s) hnr' (Or.inl hafter)
      simpa [applyUpd] using this
    · obtain ⟨c, hc, hca⟩ := activeAt_iff.mp hact
      have hcn : c.nearMissCounted = true := by
        unfold countedAt at hcnt
        rw [hc] at hcnt
        exact hcnt
      obtain ⟨hu, c', hc', hn'⟩ := @updateFn_counted u s i c hc hca hcn
      have hst' : activeAt (applyUpd u s) i = false ∨
          (activeAt (applyUpd u s) i = true ∧ countedAt (applyUpd u s) i = true) := by
        cases h1 : c'.active with
        | false =>
          left
          rw [activeAt_of_getElem hc', h1]
        | true =>
          right
          exact ⟨by rw [activeAt_of_getElem hc', h1],
            by rw [countedAt_of_getElem hc', hn']⟩
      rw [hu]
      have := ih (applyUpd u s) hnr' hst'
      simpa [applyUpd] using this

lemma runUpd_count_le {i : Nat} :
    ∀ (us : List UpdIn) (s : TrafficState), noReactivation i s us = true →
      (runUpd s us).2.count i ≤ 1 := by
  intro us
  induction us with
  | nil => intro s _; simp [runUpd]
  | cons u us ih =>
    intro s hnr
    have hnr' : noReactivation i (applyUpd u s) us = true :=
      (Bool.and_eq_true_iff.mp hnr).2
    simp only [runUpd, List.count_append]
    by_cases h0 : (updateFn u s).2.count i = 0
    · rw [h0]
      simpa using ih _ hnr'
    · obtain ⟨c', hc', hn', ha'⟩ :=
        @updateFn_fired u s i (Nat.one_le_iff_ne_zero.mpr h0)
      have hafter : activeAt (applyUpd u s) i = true ∧
          countedAt (applyUpd u s) i = true :=
        ⟨by rw [activeAt_of_getElem hc', ha'],
         by rw [countedAt_of_getElem hc', hn']⟩
      have hz := runUpd_count_zero us (applyUpd u s) hnr' (Or.inr hafter)
      have hz' : (runUpd (updateFn u s).1 us).2.count i = 0 := hz
      rw [hz']
      simpa using updateFn_count_le u s i

/-! ### Trace-level invariants -/

lemma pool_length_applyOp {s : TrafficState} {n : Nat} (op : Op)
    (h : s.pool.length = n) : (applyOp s op).pool.length = n := by
  cases op with
  | upd u =>
    show (applyUpd u s).pool.length = n
    rw [applyUpd_pool, updateLoop_length, spawnPhase_length]
    exact h
  | spn pz d sr =>
    show (spawnFn pz d sr s.pool).length = n
    rw [length_spawnFn]
    exact h
  | chk px pz hw hl => exact h
  | rst =>
    show (s.pool.map _).length = n
    rw [List.length_map]
    exact h

lemma pool_length_run (ops : List Op) : (run ops).pool.length = POOL_SIZE := by
  suffices h : ∀ s : TrafficState, s.pool.length = POOL_SIZE →
      (ops.foldl applyOp s).pool.length = POOL_SIZE by
    exact h initState (List.length_replicate ..)
  induction ops with
  | nil => intro s hs; exact hs
  | cons op ops ih =>
    intro s hs
    exact ih _ (pool_length_applyOp op hs)

lemma half_mem_set {p : List Agent} {r : Agent} {i : Nat}
    (hp : ∀ c ∈ p, c.halfW = 0.95 ∧ c.halfL = 2)
    (hr : r.halfW = 0.95 ∧ r.halfL = 2) :
    ∀ c ∈ p.set i r, c.halfW = 0.95 ∧ c.halfL = 2 := by
  intro c hc
  rcases List.mem_or_eq_of_mem_set hc with h | h
  · exact hp c h
  · exact h ▸ hr

lemma mem_of_getElem_eq_some {p : List Agent} {i : Nat} {c : Agent}
    (h : p[i]? = some c) : c ∈ p := by
  obtain ⟨hl, he⟩ := List.getElem?_eq_some.mp h
  exact he ▸ List.getElem_mem hl

lemma half_spawnFn {p : List Agent} (pz d : ℚ) (sr : SpawnRand)
    (hp : ∀ c ∈ p, c.halfW = 0.95 ∧ c.halfL = 2) :
    ∀ c ∈ spawnFn pz d sr p, c.halfW = 0.95 ∧ c.halfL = 2 := by
  rcases spawnFn_eq_or_set pz d sr p with h | ⟨k, d2, -, hk, -, -, h⟩
  · rw [h]; exact hp
  · rw [h]
    refine half_mem_set hp ?_
    have := hp d2 (mem_of_getElem_eq_some hk)
    exact this

lemma half_updateAgentAt {p : List Agent} (dt px pz ps : ℚ) (ar : AgentRand)
    (i : Nat) (hp : ∀ c ∈ p, c.halfW = 0.95 ∧ c.halfL = 2) :
    ∀ c ∈ (updateAgentAt dt px pz ps ar p i).1,
      c.halfW = 0.95 ∧ c.halfL = 2 := by
  rcases updateAgentAt_shape dt px pz ps ar p i with h | ⟨c, r, hc, h, hw, hl⟩
  · rw [h]; exact hp
  · rw [h]
    refine half_mem_set hp ?_
    have := hp c (mem_of_getElem_eq_some hc)
    exact ⟨hw.trans this.1, hl.trans this.2⟩

lemma half_updateLoop (dt px pz ps : ℚ) (ars : Nat → AgentRand) :
    ∀ (is : List Nat) (p : List Agent),
      (∀ c ∈ p, c.halfW = 0.95 ∧ c.halfL = 2) →
      ∀ c ∈ (updateLoop dt px pz ps ars is p).1,
        c.halfW = 0.95 ∧ c.halfL = 2 := by
  intro is
  induction is with
  | nil => intro p hp; exact hp
  | cons j is ih =>
    intro p hp
    simp only [updateLoop]
    exact ih _ (half_updateAgentAt dt px pz ps (ars j) j hp)

lemma half_applyOp {s : TrafficState} (op : Op)
    (hp : ∀ c ∈ s.pool, c.halfW = 0.95 ∧ c.halfL = 2) :
    ∀ c ∈ (applyOp s op).pool, c.halfW = 0.95 ∧ c.halfL = 2 := by
  cases op with
  | upd u =>
    show ∀ c ∈ (applyUpd u s).pool, _
    rw [applyUpd_pool]
    refine half_updateLoop u.dt u.playerX u.playerZ u.playerSpeed u.ars _ _ ?_
    rcases spawnPhase_cases u s with h | h
    · rw [h]; exact hp
    · rw [h]; exact half_spawnFn u.playerZ u.dist u.sr hp
  | spn pz d sr =>
    show ∀ c ∈ spawnFn pz d sr s.pool, _
    exact half_spawnFn pz d sr hp
  | chk px pz hw hl => exact hp
  | rst =>
    intro c hc
    show c.halfW = 0.95 ∧ c.halfL = 2
    rcases List.mem_map.mp hc with ⟨a, ha, rfl⟩
    exact hp a ha

lemma half_run (ops : List Op) :
    ∀ c ∈ (run ops).pool, c.halfW = 0.95 ∧ c.halfL = 2 := by
  suffices h : ∀ s : TrafficState, (∀ c ∈ s.pool, c.halfW = 0.95 ∧ c.halfL = 2) →
      ∀ c ∈ (ops.foldl applyOp s).pool, c.halfW = 0.95 ∧ c.halfL = 2 by
    refine h initState ?_
    intro c hc
    have : c = initAgent := List.eq_of_mem_replicate hc
    subst this
    exact ⟨rfl, by norm_num [initAgent]⟩
  induction ops with
  | nil => intro s hs; exact hs
  | cons op ops ih =>
    intro s hs
    exact ih _ (half_applyOp op hs)

/-! ### Field projections of the stepped slot -/

lemma stepCore_targetLane (dt : ℚ) (ar : AgentRand) (p : List Agent) (i : Nat)
    (c : Agent) :
    (stepCore dt ar p i c).targetLane =
      (laneDecision ar p i c.targetLane (c.z + c.speed / 3.6 * dt)
        (c.lcTimer - dt)).1 := rfl

lemma stepCore_x (dt : ℚ) (ar : AgentRand) (p : List Agent) (i : Nat)
    (c : Agent) :
    (stepCore dt ar p i c).x =
      c.x + (laneToX (stepCore dt ar p i c).targetLane - c.x) * dt * 2.5 := rfl

lemma updateAgentAt_core_fields {p : List Agent} {i : Nat} {c : Agent}
    (dt px pz ps : ℚ) (ar : AgentRand)
    (hc : p[i]? = some c) (ha : c.active = true) :
    ∃ c', (updateAgentAt dt px pz ps ar p i).1[i]? = some c' ∧
      c'.targetLane = (laneDecision ar p i c.targetLane
        (c.z + c.speed / 3.6 * dt) (c.lcTimer - dt)).1 ∧
      c'.z = c.z + c.speed / 3.6 * dt ∧
      c'.x = c.x + (laneToX c'.targetLane - c.x) * dt * 2.5 ∧
      c'.speed = c.speed := by
  have hlen : i < p.length := by
    obtain ⟨h, -⟩ := List.getElem?_eq_some.mp hc
    exact h
  rw [updateAgentAt_eq dt px pz ps ar hc ha]
  split
  · exact ⟨_, List.getElem?_set_self hlen, rfl, rfl, rfl, rfl⟩
  · split
    · exact ⟨_, List.getElem?_set_self hlen, rfl, rfl, rfl, rfl⟩
    · exact ⟨_, List.getElem?_set_self hlen, rfl, rfl, rfl, rfl⟩

/-! ### The claims -/

/-- C1: For every sequence of constructor, update, spawn, checkCollision and
reset calls, the pool always holds exactly `POOL_SIZE = 30` agent records
(slots are only (re)activated, never created or destroyed), and so the number
of slots whose active flag is true never exceeds the pool capacity. -/
theorem C1_pool_bound (ops : List Op) :
    (run ops).pool.length = POOL_SIZE ∧
      countActive (run ops).pool ≤ POOL_SIZE := by
  refine ⟨pool_length_run ops, ?_⟩
  calc countActive (run ops).pool ≤ (run ops).pool.length :=
        List.countP_le_length _
    _ = POOL_SIZE := pool_length_run ops

/-- C2: `checkCollision(px, pz, pHalfW, pHalfL)` returns true iff some active
slot `j` satisfies `|px - x_j| < (pHalfW + halfW_j) * 0.85` and
`|pz - z_j| < (pHalfL + halfL_j) * 0.85`; inactive slots are never
considered. -/
theorem C2_checkCollision_correct (p : List Agent) (px pz hw hl : ℚ) :
    checkCollisionFn p px pz hw hl = true ↔
      ∃ (j : Nat) (cj : Agent), p[j]? = some cj ∧ cj.active = true ∧
        |px - cj.x| < (hw + cj.halfW) * 0.85 ∧
        |pz - cj.z| < (hl + cj.halfL) * 0.85 :=
  checkCollision_iff p px pz hw hl

/-- C3 (code bug): the claim says half-extents are assigned at spawn from the
agent's visual archetype, with different archetypes getting different
half-extents.  In the code `_createCar` does store archetype extents
(e.g. `(1.1, 2.75)` for a truck draw `t = 0.9`), but `_buildPool` then
replaces the whole `userData` record with fixed `halfW = 0.95`,
`halfL = 2.0`, and `_spawn` never reassigns them: along every call sequence,
every slot carries the sedan extents `(0.95, 2)` forever, regardless of
archetype. -/
theorem C3_half_extents_constant :
    (∀ (ops : List Op) (j : Nat) (c : Agent), ((run ops).pool)[j]? = some c →
      c.halfW = 0.95 ∧ c.halfL = 2) ∧
    createCarHalf 0.9 = (1.1, 2.75) ∧ createCarHalf 0.9 ≠ (0.95, 2) ∧
    createCarHalf 0.6 = (1.05, 2.25) ∧ createCarHalf 0.3 = (0.95, 2) := by
  refine ⟨fun ops j c hc => half_run ops c (mem_of_getElem_eq_some hc),
    ?_, ?_, ?_, ?_⟩
  · norm_num [createCarHalf, Prod.ext_iff]
  · norm_num [createCarHalf, Prod.ext_iff]
  · norm_num [createCarHalf, Prod.ext_iff]
  · norm_num [createCarHalf, Prod.ext_iff]

/-- C3 witness: the part of `C3_half_extents_constant` with hypotheses,
instantiated at the freshly built pool. -/
theorem C3_witness :
    initAgent.halfW = 0.95 ∧ initAgent.halfL = 2 ∧
      createCarHalf 0.9 = (1.1, 2.75) := by
  have h := C3_half_extents_constant
  have h0 := h.1 [] 0 initAgent (by with_unfolding_all decide)
  exact ⟨h0.1, h0.2, h.2.1⟩

set_option maxRecDepth 10000 in
/-- C4 counterexample: a trace on which the claim as stated fails.  Two cars
spawn in lane 0 at z = 300 (72 km/h) and z = 288 (108 km/h) — 12 apart, so
the spawn clearance passes — then one 0.25 s update brings them to z = 305
and z = 295.5, i.e. 9.5 < 10 apart in the same lane.  A further spawn into
lane 3 at z = 350 succeeds (slot 2 turns active), yet immediately after that
successful spawn the two lane-0 agents still share a lane with longitudinal
separation below the minimum clearance 10. -/
theorem C4_counterexample :
    (demoPool[2]!).active = false ∧ (demoSpawned[2]!).active = true ∧
    (demoSpawned[0]!).active = true ∧ (demoSpawned[1]!).active = true ∧
    (demoSpawned[0]!).lane = (demoSpawned[1]!).lane ∧
    |(demoSpawned[0]!).z - (demoSpawned[1]!).z| < 10 := by
  with_unfolding_all decide

/-- C4 (amended): immediately after any successful spawn, the newly activated
agent is not within the minimum clearance (`|Δz| < 10` and `|Δx| < 3`) of any
other active agent; and the spawn is rejected — the pool, and in particular
the candidate slot, is left unchanged — whenever an active agent already sits
within that clearance of the candidate spawn point.  (Pairs of previously
active agents may still share a lane within the clearance, as the
counterexample shows.) -/
theorem C4_spawn_clearance (pz d : ℚ) (sr : SpawnRand) (p : List Agent) :
    (∀ (i : Nat) (c : Agent), getInactiveIdx p = some i → p[i]? = some c →
      spawnFn pz d sr p ≠ p →
      (spawnFn pz d sr p)[i]? = some (spawnedAgent pz sr c) ∧
      ∀ (j : Nat) (cj : Agent), j ≠ i → (spawnFn pz d sr p)[j]? = some cj →
        cj.active = true →
        ¬ (|cj.z - spawnZ pz sr| < 10 ∧ |cj.x - laneToX (spawnLane sr)| < 3)) ∧
    (spawnBlocked p (laneToX (spawnLane sr)) (spawnZ pz sr) = true →
      spawnFn pz d sr p = p) := by
  constructor
  · intro i c hg hc hne
    rcases spawnFn_eq_or_set pz d sr p with hset | ⟨k, d2, hgk, hk, -, hb, hset⟩
    · exact absurd hset hne
    · rw [hg] at hgk
      injection hgk with hgk
      subst hgk
      rw [hc] at hk
      injection hk with hk
      subst hk
      have hlen : i < p.length := by
        obtain ⟨h, -⟩ := List.getElem?_eq_some.mp hc
        exact h
      refine ⟨by rw [hset]; exact List.getElem?_set_self hlen, ?_⟩
      intro j cj hji hj hja
      rw [hset, List.getElem?_set_ne (Ne.symm hji)] at hj
      exact spawnBlocked_eq_false hb cj (mem_of_getElem_eq_some hj) hja
  · intro hb
    unfold spawnFn
    by_cases h1 : (countActive p : ℤ) ≥ targetCount d
    · rw [if_pos h1]
    · rw [if_neg h1]
      cases hg : getInactiveIdx p with
      | none => rfl
      | some k =>
        dsimp only
        rw [if_pos hb]

/-- C4 witness: the amended claim applied to a concrete pool with one distant
active car, where the spawn succeeds and the clearance conclusion holds. -/
theorem C4_witness :
    (spawnFn 0 0 ⟨0, 0, 0⟩ wPoolC4)[1]? =
        some (spawnedAgent 0 ⟨0, 0, 0⟩ initAgent) ∧
      ¬ (|wFar.z - spawnZ 0 ⟨0, 0, 0⟩| < 10 ∧
         |wFar.x - laneToX (spawnLane ⟨0, 0, 0⟩)| < 3) := by
  have h := (C4_spawn_clearance 0 0 ⟨0, 0, 0⟩ wPoolC4).1 1 initAgent
    (by with_unfolding_all decide) (by with_unfolding_all decide)
    (by with_unfolding_all decide)
  exact ⟨h.1, h.2 0 wFar (by decide) (by with_unfolding_all decide)
    (by with_unfolding_all decide)⟩

/-- C5: whenever the per-agent update step changes a slot's `targetLane`, at
that instant every other active agent whose `lane` equals the new target lane
is at longitudinal distance at least 12 (the safety window) from the
committing agent's integrated z. -/
theorem C5_lane_change_safety (dt px pz ps : ℚ) (ar : AgentRand)
    (p : List Agent) (i : Nat) (c cs : Agent)
    (hc : p[i]? = some c)
    (hres : (updateAgentAt dt px pz ps ar p i).1[i]? = some cs)
    (hne : cs.targetLane ≠ c.targetLane) :
    ∀ (j : Nat) (cj : Agent), j ≠ i → p[j]? = some cj → cj.active = true →
      cj.lane = cs.targetLane → ¬ (|cj.z - cs.z| < 12) := by
  intro j cj hji hj hja hlane
  cases hab : c.active with
  | false =>
    rw [updateAgentAt_inactive dt px pz ps ar hc hab] at hres
    dsimp only at hres
    rw [hc] at hres
    injection hres with hres
    rw [hres] at hne
    exact absurd rfl hne
  | true =>
    obtain ⟨c2, hc2, ht, hz, -, -⟩ :=
      updateAgentAt_core_fields dt px pz ps ar hc hab
    have he : cs = c2 := Option.some_inj.mp (hres.symm.trans hc2)
    subst he
    have hnl : (laneDecision ar p i c.targetLane
        (c.z + c.speed / 3.6 * dt) (c.lcTimer - dt)).1 ≠ c.targetLane := by
      rw [← ht]
      exact hne
    have hblocked := laneDecision_safety Prod.mk.eta.symm hnl
    intro hlt
    refine laneBlocked_eq_false hblocked j cj hji hj hja ?_ ?_
    · rw [← ht]
      exact hlane
    · rw [← hz]
      exact hlt

/-- C5 witness: a stationary lane-1 car rolls a change into lane 0; the only
lane-0 car is 100 ahead, so the commit happens and the safety conclusion
holds for it. -/
theorem C5_witness : ¬ (|wBlocker.z - wMoverStepped.z| < 12) := by
  have h := C5_lane_change_safety 1 0 0 0 ⟨0, 0, 0⟩ wPoolC5 1 wMover
    wMoverStepped (by with_unfolding_all decide) (by with_unfolding_all decide)
    (by with_unfolding_all decide)
  exact h 0 wBlocker (by decide) (by with_unfolding_all decide)
    (by with_unfolding_all decide) (by with_unfolding_all decide)

/-- C6: over any sequence of update calls in which slot `i` is never taken
from inactive to active (never (re)spawned), the near-miss callback fires at
most once for slot `i`; and `nearMissCounted` is never reset mid-life — an
active slot with the flag set still has it set after any further update. -/
theorem C6_near_miss_once (i : Nat) :
    (∀ (s : TrafficState) (us : List UpdIn), noReactivation i s us = true →
      (runUpd s us).2.count i ≤ 1) ∧
    (∀ (s : TrafficState) (u : UpdIn) (c : Agent), s.pool[i]? = some c →
      c.active = true → c.nearMissCounted = true →
      ∃ c', (applyUpd u s).pool[i]? = some c' ∧ c'.nearMissCounted = true) :=
  ⟨fun s us h => runUpd_count_le us s h,
   fun s u c hc ha hn => (@updateFn_counted u s i c hc ha hn).2⟩

/-- C6 witness: a single already-credited active agent across one update:
no reactivation, at most one firing, and the flag stays set. -/
theorem C6_witness :
    noReactivation 0 wC6State [wC6U] = true ∧
      (runUpd wC6State [wC6U]).2.count 0 ≤ 1 ∧
      ∃ c', (applyUpd wC6U wC6State).pool[0]? = some c' ∧
        c'.nearMissCounted = true := by
  refine ⟨by with_unfolding_all decide, ?_, ?_⟩
  · exact (C6_near_miss_once 0).1 wC6State [wC6U] (by with_unfolding_all decide)
  · exact (C6_near_miss_once 0).2 wC6State wC6U wC6Agent
      (by with_unfolding_all decide) (by with_unfolding_all decide)
      (by with_unfolding_all decide)

/-- C7: in an update tick, for an active agent with `nearMissCounted = false`
that is not despawned this tick, the callback fires and the flag is set iff,
at the post-integration position, the lateral distance to the player is below
`NEAR_MISS_DIST = 2.5`, the longitudinal distance is below `NEAR_MISS_Z = 5`,
and the player's speed exceeds the agent's speed times 1.2. -/
theorem C7_near_miss_condition (dt px pz ps : ℚ) (ar : AgentRand)
    (p : List Agent) (i : Nat) (c : Agent)
    (hc : p[i]? = some c) (ha : c.active = true)
    (hn : c.nearMissCounted = false)
    (hnd : ¬ (c.z + c.speed / 3.6 * dt < pz - DESPAWN_BEHIND)) :
    ∃ c', (updateAgentAt dt px pz ps ar p i).1[i]? = some c' ∧
      (((updateAgentAt dt px pz ps ar p i).2 = true ∧
          c'.nearMissCounted = true) ↔
        (|c'.x - px| < NEAR_MISS_DIST ∧ |c'.z - pz| < NEAR_MISS_Z ∧
          ps > c.speed * 1.2)) := by
  have hlen : i < p.length := by
    obtain ⟨h, -⟩ := List.getElem?_eq_some.mp hc
    exact h
  rw [updateAgentAt_eq dt px pz ps ar hc ha]
  rw [if_neg (show ¬ ((stepCore dt ar p i c).z < pz - DESPAWN_BEHIND) by
    rw [stepCore_z]; exact hnd)]
  by_cases hf : c.nearMissCounted = false ∧
      |(stepCore dt ar p i c).x - px| < NEAR_MISS_DIST ∧
      |(stepCore dt ar p i c).z - pz| < NEAR_MISS_Z ∧ ps > c.speed * 1.2
  · rw [if_pos hf]
    refine ⟨_, List.getElem?_set_self hlen, ?_⟩
    exact iff_of_true ⟨rfl, rfl⟩ ⟨hf.2.1, hf.2.2.1, hf.2.2.2⟩
  · rw [if_neg hf]
    refine ⟨_, List.getElem?_set_self hlen, ?_⟩
    exact iff_of_false (fun h => by simpa using h.1)
      (fun hr => hf ⟨hn, hr.1, hr.2.1, hr.2.2⟩)

/-- C7 witness: the spec scenario — a 90 km/h agent, player 2.0 to the side
and 4 ahead at 117 km/h = 1.3 × 90 km/h — fires the callback and sets the
flag. -/
theorem C7_witness :
    (updateAgentAt 0 (laneToX 0 + 2) 0 117 ⟨1/2, 0, 0⟩ wC7Pool 0).1[0]? =
        some wC7Stepped ∧
      (updateAgentAt 0 (laneToX 0 + 2) 0 117 ⟨1/2, 0, 0⟩ wC7Pool 0).2 = true ∧
      wC7Stepped.nearMissCounted = true := by
  obtain ⟨c', hc', hiff⟩ := C7_near_miss_condition 0 (laneToX 0 + 2) 0 117
    ⟨1/2, 0, 0⟩ wC7Pool 0 wC7Agent (by with_unfolding_all decide)
    (by with_unfolding_all decide) (by with_unfolding_all decide)
    (by with_unfolding_all decide)
  have he : (updateAgentAt 0 (laneToX 0 + 2) 0 117 ⟨1/2, 0, 0⟩ wC7Pool 0).1[0]? =
      some wC7Stepped := by with_unfolding_all decide
  rw [he] at hc'
  injection hc' with hc'
  subst hc'
  have hrhs : |wC7Stepped.x - (laneToX 0 + 2)| < NEAR_MISS_DIST ∧
      |wC7Stepped.z - 0| < NEAR_MISS_Z ∧ (117 : ℚ) > wC7Agent.speed * 1.2 := by
    with_unfolding_all decide
  obtain ⟨hfired, hcnt⟩ := hiff.mpr hrhs
  exact ⟨he, hfired, hcnt⟩

/-- C8: an active agent whose integrated z falls more than
`DESPAWN_BEHIND = 80` behind the playerZ of the call has its active flag
false (and is hidden) after that same update call, and the post-state
collision query is decided entirely by the other slots. -/
theorem C8_despawn (u : UpdIn) (s : TrafficState) (i : Nat) (c : Agent)
    (hc : (spawnPhase u s).1[i]? = some c) (ha : c.active = true)
    (hz : c.z + c.speed / 3.6 * u.dt < u.playerZ - DESPAWN_BEHIND) :
    ∃ c', (applyUpd u s).pool[i]? = some c' ∧ c'.active = false ∧
      c'.visible = false ∧
      ∀ px pz hw hl,
        checkCollisionFn (applyUpd u s).pool px pz hw hl = true ↔
          ∃ (j : Nat) (cj : Agent), (applyUpd u s).pool[j]? = some cj ∧
            j ≠ i ∧ cj.active = true ∧ |px - cj.x| < (hw + cj.halfW) * 0.85 ∧
            |pz - cj.z| < (hl + cj.halfL) * 0.85 := by
  have hlen : i < (spawnPhase u s).1.length := by
    obtain ⟨h, -⟩ := List.getElem?_eq_some.mp hc
    exact h
  obtain ⟨c', hc', hact, hvis⟩ := updateLoop_despawn u.dt u.playerX u.playerZ
    u.playerSpeed u.ars _ _ c (List.nodup_range _)
    (List.mem_range.mpr hlen) hc ha hz
  have hcp : (applyUpd u s).pool[i]? = some c' := by
    rw [applyUpd_pool]
    exact hc'
  refine ⟨c', hcp, hact, hvis, ?_⟩
  intro px pz hw hl
  rw [checkCollision_iff]
  constructor
  · rintro ⟨j, cj, hj, hja, h1, h2⟩
    refine ⟨j, cj, hj, ?_, hja, h1, h2⟩
    rintro rfl
    have hcj : c' = cj := Option.some_inj.mp (hcp.symm.trans hj)
    rw [← hcj] at hja
    rw [hact] at hja
    exact absurd hja (by simp)
  · rintro ⟨j, cj, hj, -, hja, h1, h2⟩
    exact ⟨j, cj, hj, hja, h1, h2⟩

/-- C8 witness: a 72 km/h car at z = -100 with the player at z = 0 despawns
during a 0.1 s update. -/
theorem C8_witness :
    ∃ c', (applyUpd wC8U wC8State).pool[0]? = some c' ∧ c'.active = false ∧
      c'.visible = false ∧
      ∀ px pz hw hl,
        checkCollisionFn (applyUpd wC8U wC8State).pool px pz hw hl = true ↔
          ∃ (j : Nat) (cj : Agent),
            (applyUpd wC8U wC8State).pool[j]? = some cj ∧
            j ≠ 0 ∧ cj.active = true ∧ |px - cj.x| < (hw + cj.halfW) * 0.85 ∧
            |pz - cj.z| < (hl + cj.halfL) * 0.85 :=
  C8_despawn wC8U wC8State 0 wC8Agent (by with_unfolding_all decide)
    (by with_unfolding_all decide) (by with_unfolding_all decide)

/-- C9: each failure path of the spawn routine — active count at or above the
distance-derived target, no inactive slot, or the candidate point within the
minimum clearance of an active agent — is a silent no-op that leaves the pool
exactly unchanged. -/
theorem C9_spawn_noop (pz d : ℚ) (sr : SpawnRand) (p : List Agent) :
    ((countActive p : ℤ) ≥ targetCount d → spawnFn pz d sr p = p) ∧
    (getInactiveIdx p = none → spawnFn pz d sr p = p) ∧
    (spawnBlocked p (laneToX (spawnLane sr)) (spawnZ pz sr) = true →
      spawnFn pz d sr p = p) := by
  refine ⟨fun h => by unfold spawnFn; rw [if_pos h], fun h => ?_, fun h => ?_⟩
  · unfold spawnFn
    split
    · rfl
    · rw [h]
  · unfold spawnFn
    by_cases h1 : (countActive p : ℤ) ≥ targetCount d
    · rw [if_pos h1]
    · rw [if_neg h1]
      cases hg : getInactiveIdx p with
      | none => rfl
      | some k =>
        dsimp only
        rw [if_pos h]

/-- C9 witness: the three failure paths on concrete pools — a full pool of 12
active cars (target met, and no inactive slot), and a car sitting exactly at
the candidate spawn point. -/
theorem C9_witness :
    spawnFn 0 0 ⟨0, 0, 0⟩ wFullPool = wFullPool ∧
      spawnFn 5 7 ⟨0, 0, 0⟩ wFullPool = wFullPool ∧
      spawnFn 0 0 ⟨0, 0, 0⟩ wNearPool = wNearPool :=
  ⟨(C9_spawn_noop 0 0 ⟨0, 0, 0⟩ wFullPool).1 (by with_unfolding_all decide),
   (C9_spawn_noop 5 7 ⟨0, 0, 0⟩ wFullPool).2.1 (by with_unfolding_all decide),
   (C9_spawn_noop 0 0 ⟨0, 0, 0⟩ wNearPool).2.2 (by with_unfolding_all decide)⟩

/-- C10: a slot that is inactive at the start of the per-agent loop (i.e.
after the spawn step) is untouched by the whole update call: its record after
the call equals its record before the call. -/
theorem C10_inactive_untouched (u : UpdIn) (s : TrafficState) (i : Nat)
    (c : Agent) (hc : (spawnPhase u s).1[i]? = some c)
    (ha : c.active = false) :
    (applyUpd u s).pool[i]? = some c ∧ s.pool[i]? = some c :=
  ⟨by
    rw [applyUpd_pool]
    exact updateLoop_skips_inactive u.dt u.playerX u.playerZ u.playerSpeed
      u.ars _ _ c hc ha,
   spawnPhase_inactive_back u hc ha⟩

/-- C10 witness: a single inactive slot across one update. -/
theorem C10_witness :
    (applyUpd wC10U wC10State).pool[0]? = some initAgent ∧
      wC10State.pool[0]? = some initAgent :=
  C10_inactive_untouched wC10U wC10State 0 initAgent
    (by with_unfolding_all decide) rfl

end Traffic
